import Mathlib

/-!
Shallow embedding of the `anno_lua` derive pipeline.

The embedding follows the Rust sources:
  * `anno_lua_derive/src/attrs.rs`   — attribute-block parsing (`parse_attrs`)
  * `anno_lua_derive/src/docs.rs`    — doc-comment extraction (`collect_docs`)
  * `anno_lua_derive/src/structs.rs` — record modelling (`collect_fields`,
    `ClassMeta::parse`, `try_classify_type`)
  * `anno_lua_derive/src/enums.rs`   — enum modelling (`collect_variants`,
    `EnumMeta::parse`, `eval_expr`)
  * `anno_lua_impl/src/lib.rs`       — the renderer (`generate_class`,
    `generate_enum`)

Modelling conventions:
  * `proc_macro2::Span` is opaque to the pipeline (only stored and compared for
    reporting); it is modelled as `Nat`.
  * `syn::Error` is a non-empty sequence of (span, message) findings;
    `syn::Error::combine` appends the right error's findings to the left's.
  * `Vec<T>` with `push` is a `List` extended at the right end.
  * `HashMap`/the per-call attribute map is an association list whose `insert`
    replaces an existing binding and returns the previous one, like
    `HashMap::insert`.
  * Attribute paths are modelled as plain identifier strings (multi-segment
    paths never occur in the inputs the derive macro receives from callers of
    interest); string literals are the only value form carried, matching the
    `LitStr` parses in the source.  syn-internal parse failures (a missing
    `= value`, a non-list `anno` attribute) abort the whole parse, which the
    model renders as an `Except.error` with a fixed stand-in message.
  * Rust `char::is_whitespace` is modelled by `Char.isWhitespace` (the ASCII
    whitespace subset, which covers every input exercised here).
-/

abbrev Span := Nat

/-- Model of `syn::Error`: an ordered batch of (span, message) findings. -/
structure SynError where
  msgs : List (Span × String)
deriving DecidableEq, Repr

/-- `syn::Error::new(span, msg)` — a single finding. -/
def SynError.new (span : Span) (msg : String) : SynError := ⟨[(span, msg)]⟩

/-- `syn::Error::combine` — append the right error's findings. -/
def SynError.combine (a b : SynError) : SynError := ⟨a.msgs ++ b.msgs⟩

/-- The `errors.reverse(); errors.into_iter().reduce(|l, r| l.combine(r))`
idiom shared by `parse_attrs`, `collect_fields` and `collect_variants`:
the diagnostics aggregator. -/
def reduceCombine : List SynError → Option SynError
  | [] => none
  | e :: es => some (es.foldl SynError.combine e)

/-- Aggregate a collected diagnostics list: reverse, then merge pairwise. -/
def combineErrors (errors : List SynError) : Option SynError :=
  reduceCombine errors.reverse

/-- Rust `char::is_whitespace` (ASCII fragment). -/
def isWs (c : Char) : Bool := c.isWhitespace

/-- Rust `str::trim_start`. -/
def trimStart (s : String) : String := ⟨s.data.dropWhile isWs⟩

/-- Rust `str::trim_end`. -/
def trimEnd (s : String) : String := ⟨(s.data.reverse.dropWhile isWs).reverse⟩

/-- Rust `str::trim` (both ends). -/
def trim (s : String) : String := trimEnd (trimStart s)

/-- `attrs::Kind` — the recognized metadata key kinds. -/
inductive Kind where
  | type
  | name
  | ignore
deriving DecidableEq, Repr

/-- `attrs::Attr` — a parsed metadata entry. -/
structure Attr where
  key : Span
  value : Span
  data : String
deriving DecidableEq, Repr

/-- One `key` or `key = "value"` element inside an `#[anno(...)]` list,
as handed to the `parse_nested_meta` closure: the key ident, its span, and
the optional string value with its span. -/
structure MetaItem where
  key : String
  keySpan : Span
  value : Option (String × Span)
deriving DecidableEq, Repr

/-- Model of `syn::Meta` forms: the value of one attribute on a node. -/
inductive MetaValue where
  | str (s : String)
  | other
deriving DecidableEq, Repr

/-- Model of `syn::Attribute`: a path with a list form (`#[p(...)]`), a
name-value form (`#[p = v]`), or a bare path (`#[p]`). -/
inductive AttrMeta where
  | list (path : String) (items : List MetaItem)
  | nameValue (path : String) (value : MetaValue)
  | pathOnly (path : String)
deriving DecidableEq, Repr

/-- `Attribute::path` of the model. -/
def AttrMeta.path : AttrMeta → String
  | .list p _ => p
  | .nameValue p _ => p
  | .pathOnly p => p

/-- `attrs.iter().find(|c| c.path().is_ident(path))`. -/
def findAttr (attrs : List AttrMeta) (path : String) : Option AttrMeta :=
  attrs.find? (fun a => a.path == path)

/-- `docs::collect_docs`: walk the attributes, keep `#[doc = "..."]` string
values, trimmed; skip everything else; never fails. -/
def collect_docs (attrs : List AttrMeta) : List String :=
  attrs.foldl (fun out input =>
    match input with
    | .nameValue p (.str lit) => if p == "doc" then out ++ [trim lit] else out
    | _ => out) []

/-- The `BTreeMap` built from the allow-list: lookup by key name.  (Caller
allow-lists never repeat a key.) -/
def lookupKind (map : List (String × Kind)) (k : String) : Option Kind :=
  match map.find? (fun p => p.1 == k) with
  | some p => some p.2
  | none => none

/-- Insertion into a sorted key list (ascending), for the `BTreeMap` key
order used by the unknown-key message. -/
def insertSorted (s : String) : List String → List String
  | [] => [s]
  | t :: ts => if s ≤ t then s :: t :: ts else t :: insertSorted s ts

/-- The `BTreeMap::keys()` of the allow-list, in ascending order. -/
def sortedKeys (allowed : List (String × Kind)) : List String :=
  allowed.foldl (fun acc p => insertSorted p.1 acc) []

/-- The `available` string of `parse_attrs`: the accepted key names joined
with `", "` in map order. -/
def availableString (allowed : List (String × Kind)) : String :=
  String.intercalate ", " (sortedKeys allowed)

/-- `HashMap::insert` on the kind→attr map: replace any existing binding,
returning the previous attr. -/
def insertAttr : List (Kind × Attr) → Kind → Attr → List (Kind × Attr) × Option Attr
  | [], k, a => ([(k, a)], none)
  | (k', a') :: rest, k, a =>
    if k' = k then ((k, a) :: rest, some a')
    else
      let (m, prev) := insertAttr rest k a
      ((k', a') :: m, prev)

/-- `HashMap::remove`: the removed attr (if any) and the remaining map. -/
def removeAttr : List (Kind × Attr) → Kind → Option Attr × List (Kind × Attr)
  | [], _ => (none, [])
  | (k', a') :: rest, k =>
    if k' = k then (some a', rest)
    else
      let (r, m) := removeAttr rest k
      (r, (k', a') :: m)

/-- The mutable state of the `parse_nested_meta` closure in `parse_attrs`. -/
structure AttrsState where
  errors : List SynError
  out : List (Kind × Attr)
deriving DecidableEq, Repr

/-- One iteration of the `parse_nested_meta` closure of `attrs::parse_attrs`:
the Ignore fast path, the unknown-key diagnostic (which still consumes the
value token), the empty-value diagnostic, and the duplicate-key diagnostic.
A `.error` result models the closure returning `Err`, which aborts the whole
`parse_nested_meta` call. -/
def processItem (map : List (String × Kind)) (st : AttrsState) (item : MetaItem) :
    Except SynError AttrsState :=
  if lookupKind map item.key = some Kind.ignore then
    .ok ⟨st.errors, (insertAttr st.out Kind.ignore ⟨item.keySpan, item.keySpan, ""⟩).1⟩
  else
    match lookupKind map item.key with
    | none =>
      match item.value with
      | none => .error (SynError.new item.keySpan "expected =")
      | some _ =>
        let err := SynError.new item.keySpan
          ("unknown ident: " ++ item.key ++ ", supported: " ++ availableString map)
        .ok ⟨st.errors ++ [err], st.out⟩
    | some kind =>
      match item.value with
      | none => .error (SynError.new item.keySpan "expected =")
      | some (v, vspan) =>
        if (trim v).isEmpty then
          .ok ⟨st.errors ++ [SynError.new vspan "attribute cannot be empty"], st.out⟩
        else
          match insertAttr st.out kind ⟨item.keySpan, vspan, v⟩ with
          | (out, some prev) =>
            let err := (SynError.new item.keySpan "duplicate attribute found").combine
              (SynError.new prev.key "previous use here")
            .ok ⟨st.errors ++ [err], out⟩
          | (out, none) => .ok ⟨st.errors, out⟩

/-- The loop of `parse_attrs` over the nested meta items: an `Err` from the
closure aborts the remaining items. -/
def parseAttrsGo (map : List (String × Kind)) (st : AttrsState) :
    List MetaItem → Except SynError AttrsState
  | [] => .ok st
  | item :: items =>
    match processItem map st item with
    | .error e => .error e
    | .ok st' => parseAttrsGo map st' items

/-- The loop of `parse_attrs` over the nested meta items. -/
def parseAttrsRun (map : List (String × Kind)) (items : List MetaItem) :
    Except SynError AttrsState :=
  parseAttrsGo map ⟨[], []⟩ items

/-- `attrs::parse_attrs`: find the `anno` attribute (none → empty map), require
its list form, process each nested item accumulating diagnostics, then
aggregate the diagnostics (reverse + pairwise combine). -/
def parse_attrs (attrs : List AttrMeta) (allowed : List (String × Kind)) :
    Except SynError (List (Kind × Attr)) :=
  match findAttr attrs "anno" with
  | none => .ok []
  | some (.list _ items) =>
    match parseAttrsRun allowed items with
    | .error e => .error e
    | .ok st =>
      match combineErrors st.errors with
      | some e => .error e
      | none => .ok st.out

  | some _ => .error (SynError.new 0 "expected attribute arguments in parentheses")

example : parse_attrs [] [("name", Kind.name)] = .ok [] := rfl

example :
    parse_attrs [.list "anno" [⟨"name", 1, some ("x", 2)⟩]] [("name", Kind.name)] =
      .ok [(Kind.name, ⟨1, 2, "x"⟩)] := rfl

example :
    parse_attrs [.list "anno" [⟨"ignore", 1, none⟩, ⟨"ignore", 2, none⟩]]
      [("lua_type", Kind.type), ("name", Kind.name), ("ignore", Kind.ignore)] =
      .ok [(Kind.ignore, ⟨2, 2, ""⟩)] := rfl

example :
    parse_attrs [.list "anno" [⟨"name", 1, some ("a", 2)⟩, ⟨"name", 3, some ("b", 4)⟩]]
      [("name", Kind.name)] =
      .error ⟨[(3, "duplicate attribute found"), (1, "previous use here")]⟩ := rfl

/- Model of `syn::Type`, `syn::Path`, `syn::PathSegment`,
`syn::PathArguments` and `syn::GenericArgument`, restricted to what
`try_classify_type` inspects. -/
mutual

inductive RustTy where
  | path : RustPath → RustTy
  | otherTy : RustTy

inductive RustPath where
  | mk : List RustSeg → RustPath

inductive RustSeg where
  | mk : String → RustArgs → RustSeg

inductive RustArgs where
  | noArgs : RustArgs
  | angle : List RustGenArg → RustArgs
  | paren : RustArgs

inductive RustGenArg where
  | tyArg : RustTy → RustGenArg
  | otherArg : RustGenArg

end

/-- `syn::Path::get_ident`: the sole segment's ident when the path has exactly
one segment carrying no arguments. -/
def RustPath.getIdent : RustPath → Option String
  | .mk [RustSeg.mk id RustArgs.noArgs] => some id
  | _ => none

/-- The integer ident table of `try_classify_type`. -/
def integerIdents : List String :=
  ["i8", "i16", "i32", "i64", "isize", "u8", "u16", "u32", "u64", "usize"]

/-- The `while let Some((buf, path)) = queue.pop_front()` loop of
`structs::try_classify_type`.  Each iteration pops one entry and pushes at
most one, so the `VecDeque` holds at most one pending (buffer, path) pair at
all times and the loop is equivalent to this direct recursion.  A base ident
matching none of the table rows leaves the queue empty, ending the loop with
`None`. -/
def tryClassifyGo : String → RustPath → Option String
  | buf, RustPath.mk [RustSeg.mk id RustArgs.noArgs] =>
    if id == "String" then some ("string" ++ buf)
    else if id == "f32" || id == "f64" then some ("number" ++ buf)
    else if id == "bool" then some ("boolean" ++ buf)
    else if integerIdents.any (fun c => id == c) then some ("integer" ++ buf)
    else none
  | buf, RustPath.mk [RustSeg.mk id (RustArgs.angle args)] =>
    if id == "Option" then
      match args with
      | [RustGenArg.tyArg (RustTy.path p)] => tryClassifyGo (buf ++ "?") p
      | _ => none
    else if id == "Vec" then
      match args with
      | [RustGenArg.tyArg (RustTy.path p)] => tryClassifyGo (buf ++ "[]") p
      | _ => none
    else none
  | _, _ => none

/-- `structs::try_classify_type`: the queue starts as `[(String::new(), path)]`. -/
def try_classify_type (path : RustPath) : Option String :=
  tryClassifyGo "" path

/-- A one-segment path with no arguments (a bare ident such as `i32`). -/
def bareIdent (id : String) : RustPath :=
  RustPath.mk [RustSeg.mk id RustArgs.noArgs]

/-- `W<inner>` for a wrapper ident `W` (such as `Option` or `Vec`). -/
def wrapPath (w : String) (inner : RustPath) : RustPath :=
  RustPath.mk [RustSeg.mk w (RustArgs.angle [RustGenArg.tyArg (RustTy.path inner)])]

example : try_classify_type (bareIdent "i32") = some "integer" := rfl

example : try_classify_type (wrapPath "Option" (bareIdent "String")) = some "string?" := rfl

example :
    try_classify_type (wrapPath "Option" (wrapPath "Vec" (bareIdent "i32"))) =
      some "integer?[]" := rfl

example : try_classify_type (bareIdent "Foo") = none := rfl

namespace data

/-- `data::Field` (anno_lua_derive). -/
structure Field where
  name : String
  ty : String
  docs : List String
deriving DecidableEq, Repr

/-- `data::Discriminant` (anno_lua_derive). -/
inductive Discriminant where
  | named (s : String)
  | number (n : Int)
deriving DecidableEq, Repr

/-- `data::Variant` (anno_lua_derive). -/
structure Variant where
  span : Span
  variant : String
  name : String
  discriminant : Discriminant
  docs : List String
deriving DecidableEq, Repr

end data

namespace Impl

/-- `anno_lua_impl::Field`. -/
structure Field where
  name : String
  ty : String
  docs : List String
deriving DecidableEq, Repr

/-- `anno_lua_impl::Class`. -/
structure Class where
  exact : Bool
  docs : List String
  name : String
  fields : List Field
deriving DecidableEq, Repr

/-- `anno_lua_impl::Discriminant`. -/
inductive Discriminant where
  | number (n : Int)
  | named (s : String)
deriving DecidableEq, Repr

/-- `anno_lua_impl::Variant`. -/
structure Variant where
  name : String
  discriminant : Discriminant
  docs : List String
deriving DecidableEq, Repr

/-- `anno_lua_impl::Enum`. -/
structure Enum where
  docs : List String
  name : String
  variants : List Variant
deriving DecidableEq, Repr

end Impl

/-- Model of `syn::DeriveInput`: the declaration's ident and its attributes
(the member data is passed separately, as in the source). -/
structure DeriveInput where
  ident : String
  attrs : List AttrMeta
deriving DecidableEq, Repr

/-- Model of `syn::Field`: optional ident (None = positional member) with its
span, the declared type, the attributes, and the whole field's span. -/
structure SynField where
  ident : Option String
  identSpan : Span
  ty : RustTy
  attrs : List AttrMeta
  span : Span

/-- `structs::ClassMeta`. -/
structure ClassMeta where
  exact : Bool
  guess : Bool
  name : String
deriving DecidableEq, Repr

/-- The `parse_nested_meta` closure of `ClassMeta::parse`: three independent
`is_ident` checks for `name`, `exact`, `guess`.  A duplicate or trim-empty
`name` aborts with an error; a value attached to a flag key, or to an
unrecognized key, is left unconsumed by the closure and so rejected by
`parse_nested_meta` itself; an unrecognized bare key is silently accepted. -/
def ClassMeta.parseItem (this : ClassMeta) (item : MetaItem) :
    Except SynError ClassMeta :=
  if item.key == "name" then
    if this.name ≠ "" then .error (SynError.new item.keySpan "duplicate name provided")
    else match item.value with
      | none => .error (SynError.new item.keySpan "expected =")
      | some (v, vspan) =>
        if (trim v).isEmpty then .error (SynError.new vspan "name cannot be empty")
        else .ok { this with name := v }
  else if item.key == "exact" then
    match item.value with
    | none => .ok { this with exact := true }
    | some (_, vspan) => .error (SynError.new vspan "unexpected token")
  else if item.key == "guess" then
    match item.value with
    | none => .ok { this with guess := true }
    | some (_, vspan) => .error (SynError.new vspan "unexpected token")
  else
    match item.value with
    | none => .ok this
    | some (_, vspan) => .error (SynError.new vspan "unexpected token")

/-- The `parse_nested_meta` loop of `ClassMeta::parse`. -/
def ClassMeta.parseList (this : ClassMeta) : List MetaItem → Except SynError ClassMeta
  | [] => .ok this
  | item :: items =>
    match ClassMeta.parseItem this item with
    | .error e => .error e
    | .ok next => ClassMeta.parseList next items

/-- `structs::ClassMeta::parse`: no `anno` attribute defaults everything;
otherwise fold the closure over the nested items and default a trim-empty
(that is, never explicitly set) name to the declared ident. -/
def ClassMeta.parse (input : DeriveInput) : Except SynError ClassMeta :=
  match findAttr input.attrs "anno" with
  | none => .ok ⟨false, false, input.ident⟩
  | some (.list _ items) =>
    match ClassMeta.parseList ⟨false, false, ""⟩ items with
    | .error e => .error e
    | .ok this =>
      .ok (if (trim this.name).isEmpty then { this with name := input.ident } else this)
  | some _ => .error (SynError.new 0 "expected attribute arguments in parentheses")

/-- The `if let syn::Type::Path(path) = &field.ty` guard around
`try_classify_type` in `collect_fields`. -/
def classifyFieldTy (ty : RustTy) : Option String :=
  match ty with
  | RustTy.path p => try_classify_type p
  | _ => none

/-- The field allow-list of `collect_fields`. -/
def fieldAllow : List (String × Kind) :=
  [("lua_type", Kind.type), ("name", Kind.name), ("ignore", Kind.ignore)]

/-- `HashMap::insert` on the `seen` name→span map. -/
def insertSeen : List (String × Span) → String → Span → List (String × Span) × Option Span
  | [], k, v => ([(k, v)], none)
  | (k', v') :: rest, k, v =>
    if k' = k then ((k, v) :: rest, some v')
    else
      let (m, prev) := insertSeen rest k v
      ((k', v') :: m, prev)

/-- The loop state of `collect_fields`: `out`, `errors`, `seen`. -/
structure FieldsState where
  out : List data.Field
  errors : List SynError
  seen : List (String × Span)
deriving DecidableEq, Repr

/-- The duplicate-name check and push shared by the tail of the
`collect_fields` loop body. -/
def finishField (st : FieldsState) (value : Span) (new : data.Field) : FieldsState :=
  match insertSeen st.seen new.name value with
  | (seen, some prev) =>
    let err := (SynError.new value "duplicate name found").combine
      (SynError.new prev "previous used here")
    { st with errors := st.errors ++ [err], seen := seen }
  | (seen, none) => { st with out := st.out ++ [new], seen := seen }

/-- One iteration of the `for field in fields` loop of
`structs::collect_fields`.  A failed attribute parse accumulates and skips;
an unnamed field or (guessing disabled) a missing `lua_type` returns an
error for the whole fold, modelling the early `return` / `?` in the source,
which abandons previously accumulated diagnostics. -/
def collectFieldsStep (guess : Bool) (st : FieldsState) (field : SynField) :
    Except SynError FieldsState :=
  match parse_attrs field.attrs fieldAllow with
  | .error err => .ok { st with errors := st.errors ++ [err] }
  | .ok kvs =>
    match field.ident with
    | none => .error (SynError.new field.span "unnamed fields are not allowed")
    | some name =>
      let (ig, kvs) := removeAttr kvs Kind.ignore
      if ig.isSome then .ok st
      else
        let (nameAttr, kvs) := removeAttr kvs Kind.name
        let attr := nameAttr.getD ⟨field.identSpan, field.identSpan, name⟩
        let (tyAttr, _kvs) := removeAttr kvs Kind.type
        let ty? := tyAttr.map (fun a => a.data)
        if guess then
          let ty := ty?.getD ((classifyFieldTy field.ty).getD "any")
          .ok (finishField st attr.value ⟨attr.data, ty, collect_docs field.attrs⟩)
        else
          match ty? with
          | none => .error (SynError.new field.identSpan "lua_type = \"type\" is required")
          | some ty =>
            .ok (finishField st attr.value ⟨attr.data, ty, collect_docs field.attrs⟩)

/-- The `for field in fields` loop: an `Err` from the step (unnamed field,
missing required type) aborts the remaining fields. -/
def collectFieldsGo (guess : Bool) (st : FieldsState) :
    List SynField → Except SynError FieldsState
  | [] => .ok st
  | f :: fs =>
    match collectFieldsStep guess st f with
    | .error e => .error e
    | .ok st' => collectFieldsGo guess st' fs

/-- `structs::collect_fields`: fold the loop, then aggregate the accumulated
diagnostics (reverse + pairwise combine). -/
def collect_fields (fields : List SynField) (guess : Bool) :
    Except SynError (List data.Field) :=
  match collectFieldsGo guess ⟨[], [], []⟩ fields with
  | .error e => .error e
  | .ok st =>
    match combineErrors st.errors with
    | some e => .error e
    | none => .ok st.out

/-- `structs::parse` up to descriptor construction: class docs and metadata,
then the fields, assembled into the `anno_lua::Class` value the generated
code produces.  (The token-stream plumbing is identity on this data.) -/
def structsParse (input : DeriveInput) (fields : List SynField) :
    Except SynError Impl.Class :=
  let docs := collect_docs input.attrs
  match ClassMeta.parse input with
  | .error err => .error err
  | .ok meta =>
    match collect_fields fields meta.guess with
    | .error err => .error err
    | .ok fields =>
      .ok ⟨meta.exact, docs, meta.name,
        fields.map (fun f => ⟨f.name, f.ty, f.docs⟩)⟩

example :
    collect_fields
      [⟨some "f", 1, RustTy.path (wrapPath "Option" (wrapPath "Vec" (bareIdent "i32"))),
        [], 10⟩] true =
      .ok [⟨"f", "integer?[]", []⟩] := rfl

example :
    collect_fields
      [⟨some "a", 1, RustTy.otherTy, [], 10⟩, ⟨some "b", 2, RustTy.otherTy, [], 20⟩] false =
      .error ⟨[(1, "lua_type = \"type\" is required")]⟩ := rfl

/-- `enums::EnumMeta`. -/
structure EnumMeta where
  use_self : Bool
  name : String
deriving DecidableEq, Repr

/-- The `parse_nested_meta` closure of `EnumMeta::parse`: independent
`is_ident` checks for `name` and `self`, with the same duplicate/empty
handling as the class metadata. -/
def EnumMeta.parseItem (this : EnumMeta) (item : MetaItem) :
    Except SynError EnumMeta :=
  if item.key == "name" then
    if this.name ≠ "" then .error (SynError.new item.keySpan "duplicate name provided")
    else match item.value with
      | none => .error (SynError.new item.keySpan "expected =")
      | some (v, vspan) =>
        if (trim v).isEmpty then .error (SynError.new vspan "name cannot be empty")
        else .ok { this with name := v }
  else if item.key == "self" then
    match item.value with
    | none => .ok { this with use_self := true }
    | some (_, vspan) => .error (SynError.new vspan "unexpected token")
  else
    match item.value with
    | none => .ok this
    | some (_, vspan) => .error (SynError.new vspan "unexpected token")

/-- The `parse_nested_meta` loop of `EnumMeta::parse`. -/
def EnumMeta.parseList (this : EnumMeta) : List MetaItem → Except SynError EnumMeta
  | [] => .ok this
  | item :: items =>
    match EnumMeta.parseItem this item with
    | .error e => .error e
    | .ok next => EnumMeta.parseList next items

/-- `enums::EnumMeta::parse`. -/
def EnumMeta.parse (input : DeriveInput) : Except SynError EnumMeta :=
  match findAttr input.attrs "anno" with
  | none => .ok ⟨false, input.ident⟩
  | some (.list _ items) =>
    match EnumMeta.parseList ⟨false, ""⟩ items with
    | .error e => .error e
    | .ok this =>
      .ok (if (trim this.name).isEmpty then { this with name := input.ident } else this)
  | some _ => .error (SynError.new 0 "expected attribute arguments in parentheses")

/-- Model of `syn::Expr` restricted to what `eval_expr` matches: an integer
literal (a non-negative digit string, carried as a `Nat`), a unary negation,
or any other expression shape. -/
inductive RExpr where
  | intLit (digits : Nat) (span : Span)
  | unaryNeg (inner : RExpr) (span : Span)
  | otherExpr (span : Span)
deriving DecidableEq, Repr

/-- `Expr::span` of the model. -/
def RExpr.span : RExpr → Span
  | .intLit _ s => s
  | .unaryNeg _ s => s
  | .otherExpr s => s

/-- `isize::MAX` (64-bit host). -/
def isizeMax : Nat := 2 ^ 63 - 1

/-- `enums::eval_expr`: an integer literal parses via `base10_parse::<isize>`
(failing beyond `isize::MAX`); a unary negation requires its operand to be
an integer literal and negates it; anything else is "expected a number
here".  The error value models the single diagnostic the source pushes
before returning `None`. -/
def eval_expr : RExpr → Except SynError Int
  | .intLit digits span =>
    if digits ≤ isizeMax then .ok (Int.ofNat digits)
    else .error (SynError.new span "number too large to fit in target type")
  | .unaryNeg inner _span =>
    match inner with
    | .intLit digits ispan =>
      if digits ≤ isizeMax then .ok (-(Int.ofNat digits))
      else .error (SynError.new ispan "number too large to fit in target type")
    | _ => .error (SynError.new inner.span "expected a number here")
  | .otherExpr span => .error (SynError.new span "expected a number here")

/-- Model of `syn::Fields` on a variant: unit or anything carrying data. -/
inductive VariantFields where
  | unit
  | nonUnit
deriving DecidableEq, Repr

/-- Model of `syn::Variant`: ident (with span), attributes, field shape,
optional explicit discriminant expression, and the variant's span. -/
structure SynVariant where
  ident : String
  identSpan : Span
  attrs : List AttrMeta
  fields : VariantFields
  discriminant : Option RExpr
  span : Span

/-- The loop state of `collect_variants`: `out`, `errors`, `seen`, and the
auto-increment counter `n`. -/
structure VariantsState where
  out : List data.Variant
  errors : List SynError
  seen : List (String × Span)
  n : Int
deriving DecidableEq, Repr

/-- The duplicate-name check and push at the tail of the `collect_variants`
loop body. -/
def finishVariant (st : VariantsState) (value : Span) (new : data.Variant) :
    VariantsState :=
  match insertSeen st.seen new.name value with
  | (seen, some prev) =>
    let err := (SynError.new value "duplicate name found").combine
      (SynError.new prev "previous used here")
    { st with errors := st.errors ++ [err], seen := seen }
  | (seen, none) => { st with out := st.out ++ [new], seen := seen }

/-- One iteration of the `for variant in variants` loop of
`enums::collect_variants`.  Every failure accumulates into `errors` and
skips the variant; there is no early return.  In default (non-`self`) mode
the counter increments for every unit variant whose discriminant resolves,
explicit or not; in `self` mode an explicit discriminant is the
`SelfDiscriminant` diagnostic and otherwise the variant is `Named` with the
enum's resolved name. -/
def collectVariantsStep (enumName : String) (use_self : Bool)
    (st : VariantsState) (variant : SynVariant) : VariantsState :=
  let docs := collect_docs variant.attrs
  match parse_attrs variant.attrs [("name", Kind.name)] with
  | .error err => { st with errors := st.errors ++ [err] }
  | .ok kv =>
    match kv.find? (fun p => !(p.1 = Kind.name)) with
    | some p =>
      { st with errors := st.errors ++
          [SynError.new p.2.key "only name = \"name\" is allowed here"] }
    | none =>
      let (nameAttr, _kv) := removeAttr kv Kind.name
      let attr := nameAttr.getD ⟨variant.identSpan, variant.identSpan, variant.ident⟩
      match variant.fields with
      | .nonUnit =>
        { st with errors := st.errors ++
            [SynError.new variant.span "only unit variants are allowed"] }
      | .unit =>
        if variant.discriminant.isSome && use_self then
          { st with errors := st.errors ++
              [SynError.new variant.span
                "a discriminant was provided when `self` was requested"] }
        else if !use_self then
          match variant.discriminant with
          | some e =>
            match eval_expr e with
            | .error err => { st with errors := st.errors ++ [err] }
            | .ok t =>
              finishVariant { st with n := st.n + 1 } attr.value
                ⟨variant.span, variant.ident, attr.data, .number t, docs⟩
          | none =>
            finishVariant { st with n := st.n + 1 } attr.value
              ⟨variant.span, variant.ident, attr.data, .number st.n, docs⟩
        else
          finishVariant st attr.value
            ⟨variant.span, variant.ident, attr.data, .named enumName, docs⟩

/-- The final loop state of `collect_variants`, starting from empty `out`,
`errors`, `seen` and counter 0. -/
def collectVariantsState (variants : List SynVariant) (enumName : String)
    (use_self : Bool) : VariantsState :=
  variants.foldl (collectVariantsStep enumName use_self) ⟨[], [], [], 0⟩

/-- `enums::collect_variants`: fold the loop from counter 0, then aggregate
the accumulated diagnostics (reverse + pairwise combine). -/
def collect_variants (variants : List SynVariant) (enumName : String)
    (use_self : Bool) : Except SynError (List data.Variant) :=
  match combineErrors (collectVariantsState variants enumName use_self).errors with
  | some e => .error e
  | none => .ok (collectVariantsState variants enumName use_self).out

/-- `enums::parse` up to descriptor construction: enum docs and metadata,
then the variants, assembled into the `anno_lua::Enum` value the generated
code produces. -/
def enumsParse (input : DeriveInput) (variants : List SynVariant) :
    Except SynError Impl.Enum :=
  let docs := collect_docs input.attrs
  match EnumMeta.parse input with
  | .error err => .error err
  | .ok meta =>
    match collect_variants variants meta.name meta.use_self with
    | .error err => .error err
    | .ok variants =>
      .ok ⟨docs, meta.name,
        variants.map (fun v =>
          ⟨v.name,
            match v.discriminant with
            | .named n => Impl.Discriminant.named n
            | .number n => Impl.Discriminant.number n,
            v.docs⟩)⟩

/-- A plain unit variant with no attributes and no explicit discriminant. -/
def plainVariant (id : String) (sp : Span) : SynVariant :=
  ⟨id, sp, [], VariantFields.unit, none, sp⟩

/-- A plain unit variant with an explicit discriminant expression. -/
def discVariant (id : String) (sp : Span) (e : RExpr) : SynVariant :=
  ⟨id, sp, [], VariantFields.unit, some e, sp⟩

example :
    collect_variants
      [plainVariant "A" 1, discVariant "B" 2 (RExpr.intLit 10 2), plainVariant "C" 3]
      "E" false =
      .ok [⟨1, "A", "A", .number 0, []⟩, ⟨2, "B", "B", .number 10, []⟩,
        ⟨3, "C", "C", .number 2, []⟩] := rfl

example :
    collect_variants [plainVariant "A" 1, plainVariant "B" 2] "E" true =
      .ok [⟨1, "A", "A", .named "E", []⟩, ⟨2, "B", "B", .named "E", []⟩] := rfl

example :
    collect_variants [plainVariant "A" 1, discVariant "B" 2 (RExpr.intLit 10 2)] "E" true =
      .error ⟨[(2, "a discriminant was provided when `self` was requested")]⟩ := rfl

namespace Impl

/-- `anno_lua_impl::generate_class`, with the `Write` sink modelled as an
accumulated string (the writes are infallible on a string buffer).  Braces
in the output are written with their escape codes. -/
def generate_class (c : Class) : String :=
  let out := c.docs.foldl (fun out doc => out ++ "--- " ++ trimStart doc ++ "\n") ""
  let out := out ++ "---@class "
  let out := if c.exact then out ++ "(exact) " else out
  let out := out ++ trimStart c.name ++ "\n"
  let out := c.fields.foldl (fun out field =>
    let out := field.docs.foldl (fun out doc => out ++ "--- " ++ trimStart doc ++ "\n") out
    out ++ "---@field " ++ trimStart field.name ++ " " ++ trimStart field.ty ++ "\n") out
  let out := out ++ trimStart c.name ++ " = \x7b \x7d\n"
  out ++ "\n"

/-- `anno_lua_impl::generate_enum`, with the `Write` sink modelled as an
accumulated string.  Note the `Named` discriminant is written verbatim,
without `trim_start`. -/
def generate_enum (e : Enum) : String :=
  let out := e.docs.foldl (fun out doc => out ++ "--- " ++ trimStart doc ++ "\n") ""
  let out := out ++ "---@enum " ++ trimStart e.name ++ "\n"
  let out := out ++ trimStart e.name ++ " = \x7b\n"
  let out := e.variants.foldl (fun out variant =>
    let out := variant.docs.foldl
      (fun out doc => out ++ "    --- " ++ trimStart doc ++ "\n") out
    let out := out ++ "    " ++ trimStart variant.name ++ " = "
    match variant.discriminant with
    | .number n => out ++ toString n ++ ",\n"
    | .named n => out ++ n ++ ",\n") out
  let out := out ++ "\x7d\n"
  out ++ "\n"

/-- A field with its name, type and doc lines left-trimmed. -/
def normField (f : Field) : Field :=
  ⟨trimStart f.name, trimStart f.ty, f.docs.map trimStart⟩

/-- A class with its doc lines, name, and fields left-trimmed. -/
def normClass (c : Class) : Class :=
  ⟨c.exact, c.docs.map trimStart, trimStart c.name, c.fields.map normField⟩

/-- A variant with its name and doc lines left-trimmed (the discriminant
untouched). -/
def normVariant (v : Variant) : Variant :=
  ⟨trimStart v.name, v.discriminant, v.docs.map trimStart⟩

/-- An enum with its doc lines, name and variants left-trimmed (discriminants
untouched). -/
def normEnum (e : Enum) : Enum :=
  ⟨e.docs.map trimStart, trimStart e.name, e.variants.map normVariant⟩

/-- Left-trimming of *every* textual field of a variant, including a `Named`
discriminant string — the normalization claim C9's universal clause asks
for. -/
def trimAllVariant (v : Variant) : Variant :=
  ⟨trimStart v.name,
    (match v.discriminant with
      | .named s => .named (trimStart s)
      | d => d),
    v.docs.map trimStart⟩

/-- Left-trimming of every textual field of an enum descriptor, `Named`
discriminant strings included. -/
def trimAllEnum (e : Enum) : Enum :=
  ⟨e.docs.map trimStart, trimStart e.name, e.variants.map trimAllVariant⟩

end Impl

example :
    Impl.generate_class ⟨true, [], "Foo", [⟨"count", "integer", ["The foo count"]⟩]⟩ =
      "---@class (exact) Foo\n--- The foo count\n---@field count integer\nFoo = \x7b \x7d\n\n" :=
  rfl

example :
    Impl.generate_enum ⟨[], "E", [⟨"V", Impl.Discriminant.named " Foo", []⟩]⟩ =
      "---@enum E\nE = \x7b\n    V =  Foo,\n\x7d\n\n" := rfl

lemma foldl_combine_msgs (xs : List SynError) (x : SynError) :
    (xs.foldl SynError.combine x).msgs = x.msgs ++ (xs.map SynError.msgs).flatten := by
  induction xs generalizing x with
  | nil => simp
  | cons y ys ih => simp [ih, SynError.combine]

lemma combineErrors_eq_none_iff (errors : List SynError) :
    combineErrors errors = none ↔ errors = [] := by
  unfold combineErrors reduceCombine
  cases h : errors.reverse with
  | nil => simp_all [List.reverse_eq_nil_iff.mp h]
  | cons hd tl =>
    constructor
    · intro hc; simp at hc
    · intro hc; subst hc; simp at h

lemma combineErrors_msgs (errors : List SynError) (e : SynError)
    (h : combineErrors errors = some e) :
    e.msgs = (errors.reverse.map SynError.msgs).flatten := by
  unfold combineErrors reduceCombine at h
  cases hrev : errors.reverse with
  | nil => rw [hrev] at h; simp at h
  | cons hd tl =>
    rw [hrev] at h
    simp only [Option.some.injEq] at h
    subst h
    rw [foldl_combine_msgs]
    simp

lemma combineErrors_of_ne_nil (errors : List SynError) (h : errors ≠ []) :
    ∃ e, combineErrors errors = some e ∧
      e.msgs = (errors.reverse.map SynError.msgs).flatten := by
  cases hc : combineErrors errors with
  | none => exact absurd ((combineErrors_eq_none_iff errors).mp hc) h
  | some e => exact ⟨e, rfl, combineErrors_msgs errors e hc⟩

/-- Claim C7: for every non-empty collected diagnostics list the aggregator
returns one combined report whose findings are, in order, those of the
last-collected diagnostic (the primary) followed by each earlier
diagnostic's findings in reverse collection order; it returns no error
exactly when the list is empty. -/
theorem C7_diagnostics_aggregator :
    (∀ errors : List SynError, combineErrors errors = none ↔ errors = []) ∧
    (∀ (errors : List SynError) (e : SynError), combineErrors errors = some e →
      e.msgs = (errors.reverse.map SynError.msgs).flatten) :=
  ⟨combineErrors_eq_none_iff, combineErrors_msgs⟩

theorem C7_witness :
    combineErrors [] = none ∧
    (⟨[(2, "b"), (1, "a")]⟩ : SynError).msgs =
      (([⟨[(1, "a")]⟩, ⟨[(2, "b")]⟩] : List SynError).reverse.map SynError.msgs).flatten :=
  ⟨(C7_diagnostics_aggregator.1 []).mpr rfl,
    C7_diagnostics_aggregator.2 [⟨[(1, "a")]⟩, ⟨[(2, "b")]⟩] ⟨[(2, "b"), (1, "a")]⟩ rfl⟩

/-- The Documentation Extractor as claim C10 words it: exactly the
doc-comment string literals, in source order, each trimmed of both leading
and trailing whitespace; non-doc attributes and non-string doc values are
skipped. -/
def claimCollectDocs (attrs : List AttrMeta) : List String :=
  attrs.filterMap (fun a =>
    match a with
    | .nameValue "doc" (.str lit) => some (trimEnd (trimStart lit))
    | _ => none)

lemma collect_docs_go (attrs : List AttrMeta) (out : List String) :
    attrs.foldl (fun out input =>
      match input with
      | .nameValue p (.str lit) => if p == "doc" then out ++ [trim lit] else out
      | _ => out) out = out ++ claimCollectDocs attrs := by
  induction attrs generalizing out with
  | nil => simp [claimCollectDocs]
  | cons a as ih =>
    rw [List.foldl_cons]
    cases a with
    | nameValue p v =>
      cases v with
      | str lit =>
        by_cases hp : p = "doc"
        · subst hp
          rw [ih]
          simp [claimCollectDocs, trim]
        · have hb : (p == "doc") = false := by simp [hp]
          rw [ih]
          simp [claimCollectDocs, hb, hp]
      | other =>
        rw [ih]
        simp [claimCollectDocs]
    | list p items =>
      rw [ih]
      simp [claimCollectDocs]
    | pathOnly p =>
      rw [ih]
      simp [claimCollectDocs]

/-- Claim C10: for every attribute list the Documentation Extractor returns
exactly the doc-comment string literals in source order, each fully trimmed
(leading and trailing whitespace); non-doc attributes and non-string doc
values are skipped; the function is total. -/
theorem C10_collect_docs_spec :
    ∀ attrs : List AttrMeta, collect_docs attrs = claimCollectDocs attrs := by
  intro attrs
  have h := collect_docs_go attrs []
  simpa [collect_docs] using h

/-- A field the `collect_fields` loop drops without any effect on its state:
a named member whose attribute block parses and carries the `ignore` flag. -/
def fieldIgnored (field : SynField) : Bool :=
  field.ident.isSome &&
    match parse_attrs field.attrs fieldAllow with
    | .ok kvs => (removeAttr kvs Kind.ignore).1.isSome
    | .error _ => false

lemma collectFieldsStep_ignored (guess : Bool) (st : FieldsState) (field : SynField)
    (h : fieldIgnored field = true) :
    collectFieldsStep guess st field = .ok st := by
  unfold fieldIgnored at h
  cases hp : parse_attrs field.attrs fieldAllow with
  | error err => rw [hp] at h; simp at h
  | ok kvs =>
    rw [hp] at h
    cases hid : field.ident with
    | none => rw [hid] at h; simp at h
    | some name =>
      rw [hid] at h
      simp only [Option.isSome_some, Bool.true_and] at h
      rcases hrm : removeAttr kvs Kind.ignore with ⟨ig, kvs2⟩
      rw [hrm] at h
      simp only [collectFieldsStep, hp, hid, hrm]
      simp at h
      simp [h]

lemma collectFieldsGo_filter (guess : Bool) :
    ∀ (fields : List SynField) (st : FieldsState),
      collectFieldsGo guess st fields =
        collectFieldsGo guess st (fields.filter (fun f => !fieldIgnored f)) := by
  intro fields
  induction fields with
  | nil => intro st; rfl
  | cons f fs ih =>
    intro st
    by_cases hf : fieldIgnored f
    · rw [List.filter_cons_of_neg (by simp [hf])]
      have hstep := collectFieldsStep_ignored guess st f hf
      simp only [collectFieldsGo, hstep]
      exact ih st
    · rw [List.filter_cons_of_pos (by simp [hf])]
      simp only [collectFieldsGo]
      cases collectFieldsStep guess st f with
      | error e => rfl
      | ok st' => exact ih st'

/-- Claim C6: a field carrying the `ignore` flag is dropped by the record
modeler with no effect at all — `collect_fields` computes the same result
(field list and diagnostics alike) as on the input with every ignored field
filtered out, whatever its position.  In particular an ignored field never
appears in the resulting field list, its (declared or renamed) name never
enters the uniqueness check, and a non-ignored field sharing a name with an
ignored one raises no conflict. -/
theorem C6_ignored_fields_dropped :
    ∀ (fields : List SynField) (guess : Bool),
      collect_fields fields guess =
        collect_fields (fields.filter (fun f => !fieldIgnored f)) guess := by
  intro fields guess
  unfold collect_fields
  rw [← collectFieldsGo_filter]

example :
    collect_fields
      [⟨some "x", 1, RustTy.otherTy, [.list "anno" [⟨"ignore", 5, none⟩]], 10⟩,
        ⟨some "x", 2, RustTy.otherTy, [.list "anno" [⟨"lua_type", 6, some ("integer", 7)⟩]], 20⟩]
      false = .ok [⟨"x", "integer", []⟩] := rfl

/-- Claim C3: in default (non-`self`) mode the counter starts at 0 and
increments once per successfully processed unit variant; a variant with no
explicit discriminant gets `Number(counter)`, one with an explicit integer
literal gets that literal, and the counter increments in both cases — so
A, B(=k), C yield 0, k, 2 — and two variants sharing a numeric value are
accepted without error. -/
theorem C3_default_mode_sequencing :
    (∀ (en a b c : String) (sa sb sc : Span) (k : Nat),
      a ≠ b → a ≠ c → b ≠ c → k ≤ isizeMax →
      collect_variants
        [plainVariant a sa, discVariant b sb (RExpr.intLit k sb), plainVariant c sc]
        en false =
        .ok [⟨sa, a, a, .number 0, []⟩, ⟨sb, b, b, .number (Int.ofNat k), []⟩,
          ⟨sc, c, c, .number 2, []⟩]) ∧
    (∀ (en x y : String) (sx sy : Span), x ≠ y →
      collect_variants [discVariant x sx (RExpr.intLit 1 sx), plainVariant y sy] en false =
        .ok [⟨sx, x, x, .number 1, []⟩, ⟨sy, y, y, .number 1, []⟩]) := by
  constructor
  · intro en a b c sa sb sc k hab hac hbc hk
    simp [collect_variants, collectVariantsState, collectVariantsStep, plainVariant,
      discVariant, parse_attrs, findAttr, collect_docs, removeAttr, finishVariant,
      insertSeen, eval_expr, hk, combineErrors, reduceCombine, hab, hac, hbc]
  · intro en x y sx sy hxy
    simp [collect_variants, collectVariantsState, collectVariantsStep, plainVariant,
      discVariant, parse_attrs, findAttr, collect_docs, removeAttr, finishVariant,
      insertSeen, eval_expr, combineErrors, reduceCombine, hxy, isizeMax]

theorem C3_witness :
    collect_variants
      [plainVariant "A" 1, discVariant "B" 2 (RExpr.intLit 10 2), plainVariant "C" 3]
      "E" false =
      .ok [⟨1, "A", "A", .number 0, []⟩, ⟨2, "B", "B", .number (Int.ofNat 10), []⟩,
        ⟨3, "C", "C", .number 2, []⟩] ∧
    collect_variants [discVariant "X" 1 (RExpr.intLit 1 1), plainVariant "Y" 2] "E" false =
      .ok [⟨1, "X", "X", .number 1, []⟩, ⟨2, "Y", "Y", .number 1, []⟩] :=
  ⟨C3_default_mode_sequencing.1 "E" "A" "B" "C" 1 2 3 10 (by decide) (by decide) (by decide)
      (by norm_num [isizeMax]),
    C3_default_mode_sequencing.2 "E" "X" "Y" 1 2 (by decide)⟩

lemma errors_prefix_finish (st : VariantsState) (value : Span) (new : data.Variant) :
    st.errors <+: (finishVariant st value new).errors := by
  unfold finishVariant
  split <;> simp [List.prefix_append]

lemma errors_prefix_step (en : String) (us : Bool) (st : VariantsState) (v : SynVariant) :
    st.errors <+: (collectVariantsStep en us st v).errors := by
  unfold collectVariantsStep
  repeat' split
  all_goals try exact errors_prefix_finish _ _ _
  all_goals try simp [List.prefix_append]
  all_goals unfold finishVariant
  all_goals split
  all_goals simp [List.prefix_append]

lemma errors_mem_foldl (en : String) (us : Bool) (e : SynError) :
    ∀ (vs : List SynVariant) (st : VariantsState), e ∈ st.errors →
      e ∈ (vs.foldl (collectVariantsStep en us) st).errors := by
  intro vs
  induction vs with
  | nil => intro st h; simpa using h
  | cons u us' ih =>
    intro st h
    rw [List.foldl_cons]
    exact ih _ ((errors_prefix_step en us st u).subset h)

lemma collectVariantsStep_self_disc (en : String) (st : VariantsState) (v : SynVariant)
    (hu : v.fields = .unit) (ha : v.attrs = []) (hd : v.discriminant.isSome = true) :
    collectVariantsStep en true st v =
      { st with errors := st.errors ++
          [SynError.new v.span "a discriminant was provided when `self` was requested"] } := by
  simp [collectVariantsStep, ha, parse_attrs, findAttr, collect_docs, removeAttr, hu, hd]

lemma selfdisc_mem (en : String) :
    ∀ (vs : List SynVariant) (st : VariantsState),
      (∀ v ∈ vs, v.fields = .unit ∧ v.attrs = []) →
      ∀ v ∈ vs, v.discriminant.isSome = true →
        SynError.new v.span "a discriminant was provided when `self` was requested" ∈
          (vs.foldl (collectVariantsStep en true) st).errors := by
  intro vs
  induction vs with
  | nil => intro st _ v hv; simp at hv
  | cons u us' ih =>
    intro st hall v hv hd
    rw [List.foldl_cons]
    rcases List.mem_cons.mp hv with rfl | hv'
    · obtain ⟨hu, ha⟩ := hall v (List.mem_cons_self _ _)
      rw [collectVariantsStep_self_disc en st v hu ha hd]
      exact errors_mem_foldl en true _ us' _ (by simp)
    · exact ih (collectVariantsStep en true st u)
        (fun w hw => hall w (List.mem_cons_of_mem _ hw)) v hv' hd

/-- Claim C4: with the `self` flag, every unit variant without an explicit
discriminant receives `Named(<resolved enum name>)`; and for plain unit
variants, every variant carrying an explicit discriminant expression makes
modeling fail, with the `SelfDiscriminant` ("a discriminant was provided
when `self` was requested") finding at that variant's span in the combined
report. -/
theorem C4_self_mode :
    (∀ (en a b c : String) (sa sb sc : Span), a ≠ b → a ≠ c → b ≠ c →
      collect_variants [plainVariant a sa, plainVariant b sb, plainVariant c sc] en true =
        .ok [⟨sa, a, a, .named en, []⟩, ⟨sb, b, b, .named en, []⟩,
          ⟨sc, c, c, .named en, []⟩]) ∧
    (∀ (vs : List SynVariant) (en : String),
      (∀ v ∈ vs, v.fields = .unit ∧ v.attrs = []) →
      ∀ v ∈ vs, v.discriminant.isSome = true →
        ∃ e, collect_variants vs en true = .error e ∧
          (v.span, "a discriminant was provided when `self` was requested") ∈ e.msgs) := by
  constructor
  · intro en a b c sa sb sc hab hac hbc
    simp [collect_variants, collectVariantsState, collectVariantsStep, plainVariant,
      parse_attrs, findAttr, collect_docs, removeAttr, finishVariant, insertSeen,
      combineErrors, reduceCombine, hab, hac, hbc]
  · intro vs en hall v hv hd
    have hmem : SynError.new v.span "a discriminant was provided when `self` was requested" ∈
        (collectVariantsState vs en true).errors :=
      selfdisc_mem en vs ⟨[], [], [], 0⟩ hall v hv hd
    obtain ⟨e, hc, hmsgs⟩ :=
      combineErrors_of_ne_nil (collectVariantsState vs en true).errors
        (List.ne_nil_of_mem hmem)
    refine ⟨e, ?_, ?_⟩
    · unfold collect_variants
      rw [hc]
    · rw [hmsgs]
      refine List.mem_flatten.mpr
        ⟨[(v.span, "a discriminant was provided when `self` was requested")], ?_, by simp⟩
      have hrev : (SynError.new v.span
          "a discriminant was provided when `self` was requested") ∈
          (collectVariantsState vs en true).errors.reverse :=
        List.mem_reverse.mpr hmem
      simpa [SynError.new] using List.mem_map_of_mem SynError.msgs hrev

theorem C4_witness :
    collect_variants [plainVariant "A" 1, plainVariant "B" 2, plainVariant "C" 3] "E" true =
      .ok [⟨1, "A", "A", .named "E", []⟩, ⟨2, "B", "B", .named "E", []⟩,
        ⟨3, "C", "C", .named "E", []⟩] ∧
    ∃ e, collect_variants [plainVariant "A" 1, discVariant "B" 2 (RExpr.intLit 7 2)] "E" true =
        .error e ∧
      ((2 : Span), "a discriminant was provided when `self` was requested") ∈ e.msgs :=
  ⟨C4_self_mode.1 "E" "A" "B" "C" 1 2 3 (by decide) (by decide) (by decide),
    C4_self_mode.2 [plainVariant "A" 1, discVariant "B" 2 (RExpr.intLit 7 2)] "E"
      (by
        intro v hv
        simp only [List.mem_cons, List.not_mem_nil, or_false] at hv
        rcases hv with rfl | rfl <;> simp [plainVariant, discVariant])
      (discVariant "B" 2 (RExpr.intLit 7 2)) (by simp) (by simp [discVariant])⟩

/-- Claim C1 counterexample: with guessing enabled and no explicit override,
a field of type `Option<Vec<i32>>` is classified `"integer?[]"` — the outer
optional's `?` lands before the inner list's `[]` — not `"integer[]?"` as
the claim states. -/
theorem C1_counterexample :
    collect_fields
      [⟨some "f", 1, RustTy.path (wrapPath "Option" (wrapPath "Vec" (bareIdent "i32"))),
        [], 10⟩] true =
      .ok [⟨"f", "integer?[]", []⟩] ∧
    "integer?[]" ≠ "integer[]?" :=
  ⟨rfl, by decide⟩

/-- Claim C1 as amended: with guessing enabled and no explicit override, a
field whose declared type is optional-of(list-of(any integer ident)) is
classified `"integer?[]"` (wrapper suffixes are appended outer-to-inner,
the optional suffix first, adjacent to the base name); and every shape the
classifier does not cover resolves to `"any"`. -/
theorem C1_option_vec_classification :
    (∀ intId ∈ integerIdents, ∀ (sp fsp : Span) (id : String),
      collect_fields
        [⟨some id, sp, RustTy.path (wrapPath "Option" (wrapPath "Vec" (bareIdent intId))),
          [], fsp⟩] true =
        .ok [⟨id, "integer?[]", []⟩]) ∧
    (∀ (t : RustTy) (sp fsp : Span) (id : String), classifyFieldTy t = none →
      collect_fields [⟨some id, sp, t, [], fsp⟩] true = .ok [⟨id, "any", []⟩]) := by
  constructor
  · intro intId h sp fsp id
    fin_cases h <;> rfl
  · intro t sp fsp id h
    simp [collect_fields, collectFieldsGo, collectFieldsStep, parse_attrs, findAttr,
      collect_docs, removeAttr, finishField, insertSeen, combineErrors, reduceCombine, h]

theorem C1_witness :
    ("i32" ∈ integerIdents ∧
      collect_fields
        [⟨some "f", 1, RustTy.path (wrapPath "Option" (wrapPath "Vec" (bareIdent "i32"))),
          [], 10⟩] true =
        .ok [⟨"f", "integer?[]", []⟩]) ∧
    (classifyFieldTy RustTy.otherTy = none ∧
      collect_fields [⟨some "g", 2, RustTy.otherTy, [], 20⟩] true =
        .ok [⟨"g", "any", []⟩]) :=
  ⟨⟨by decide, C1_option_vec_classification.1 "i32" (by decide) 1 10 "f"⟩,
    ⟨rfl, C1_option_vec_classification.2 RustTy.otherTy 2 20 "g" rfl⟩⟩

/-- Claim C2 counterexample: a record with two fields, both missing the
required type (guessing disabled), reports only the first member's
`TyRequire` finding — the `?` in the source aborts at the first failing
member instead of accumulating both. -/
theorem C2_counterexample :
    collect_fields
      [⟨some "a", 1, RustTy.otherTy, [], 10⟩, ⟨some "b", 2, RustTy.otherTy, [], 20⟩]
      false =
      .error ⟨[(1, "lua_type = \"type\" is required")]⟩ ∧
    ∀ m ∈ (⟨[(1, "lua_type = \"type\" is required")]⟩ : SynError).msgs, m.1 ≠ 2 :=
  ⟨rfl, by decide⟩

/-- Claim C2 as amended: record modeling accumulates attribute-parsing
diagnostics and duplicate-name diagnostics across members into one
combined report; but the first member missing its required type (guessing
disabled), or the first unnamed member, aborts modeling immediately with
only that diagnostic, discarding findings already collected from other
members. -/
theorem C2_partial_accumulation :
    (∀ (k1 v1 k2 v2 f1 f2 : Span) (guess : Bool),
      collect_fields
        [⟨some "a", f1, RustTy.otherTy, [.list "anno" [⟨"name", k1, some ("", v1)⟩]], f1⟩,
          ⟨some "b", f2, RustTy.otherTy, [.list "anno" [⟨"name", k2, some ("", v2)⟩]], f2⟩]
        guess =
        .error ⟨[(v2, "attribute cannot be empty"), (v1, "attribute cannot be empty")]⟩) ∧
    (∀ (s1 s2 s3 k1 tv1 k2 tv2 k3 v3 f1 f2 f3 : Span),
      collect_fields
        [⟨some "x", s1, RustTy.otherTy,
            [.list "anno" [⟨"lua_type", k1, some ("integer", tv1)⟩]], f1⟩,
          ⟨some "x", s2, RustTy.otherTy,
            [.list "anno" [⟨"lua_type", k2, some ("integer", tv2)⟩]], f2⟩,
          ⟨some "c", s3, RustTy.otherTy,
            [.list "anno" [⟨"name", k3, some ("", v3)⟩]], f3⟩]
        false =
        .error ⟨[(v3, "attribute cannot be empty"),
          (s2, "duplicate name found"), (s1, "previous used here")]⟩) ∧
    (∀ (s1 s2 f1 f2 : Span),
      collect_fields
        [⟨some "a", s1, RustTy.otherTy, [], f1⟩, ⟨some "b", s2, RustTy.otherTy, [], f2⟩]
        false =
        .error ⟨[(s1, "lua_type = \"type\" is required")]⟩) ∧
    (∀ (k1 v1 f1 s2 : Span),
      collect_fields
        [⟨some "a", f1, RustTy.otherTy, [.list "anno" [⟨"name", k1, some ("", v1)⟩]], f1⟩,
          ⟨none, s2, RustTy.otherTy, [], s2⟩] true =
        .error ⟨[(s2, "unnamed fields are not allowed")]⟩) := by
  refine ⟨fun k1 v1 k2 v2 f1 f2 guess => rfl,
    fun s1 s2 s3 k1 tv1 k2 tv2 k3 v3 f1 f2 f3 => rfl,
    fun s1 s2 f1 f2 => rfl,
    fun k1 v1 f1 s2 => rfl⟩

/-- Claim C5 counterexample: the `ignore` flag key repeated in one block
produces no diagnostic at all (the flag fast path returns before the
duplicate check), and the entry retained for the key is the second
occurrence's, not the first's. -/
theorem C5_counterexample :
    parse_attrs [.list "anno" [⟨"ignore", 1, none⟩, ⟨"ignore", 2, none⟩]] fieldAllow =
      .ok [(Kind.ignore, ⟨2, 2, ""⟩)] := rfl

/-- Claim C5 as amended: a string-valued key repeated within one block yields
a diagnostic referencing both occurrences' key locations, and the mapping
retains the second occurrence's entry (`HashMap::insert` replaces); the
flag (`ignore`) key repeated yields no diagnostic, retaining the second
flag entry. -/
theorem C5_duplicate_key :
    (∀ (k1 v1 k2 v2 : Span) (a b : String),
      (trim a).isEmpty = false → (trim b).isEmpty = false →
      parseAttrsRun [("name", Kind.name)]
        [⟨"name", k1, some (a, v1)⟩, ⟨"name", k2, some (b, v2)⟩] =
        .ok ⟨[(SynError.new k2 "duplicate attribute found").combine
            (SynError.new k1 "previous use here")],
          [(Kind.name, ⟨k2, v2, b⟩)]⟩ ∧
      parse_attrs
        [.list "anno" [⟨"name", k1, some (a, v1)⟩, ⟨"name", k2, some (b, v2)⟩]]
        [("name", Kind.name)] =
        .error ⟨[(k2, "duplicate attribute found"), (k1, "previous use here")]⟩) ∧
    (∀ (s1 s2 : Span),
      parse_attrs [.list "anno" [⟨"ignore", s1, none⟩, ⟨"ignore", s2, none⟩]] fieldAllow =
        .ok [(Kind.ignore, ⟨s2, s2, ""⟩)]) := by
  constructor
  · intro k1 v1 k2 v2 a b ha hb
    constructor
    · simp [parseAttrsRun, parseAttrsGo, processItem, lookupKind, insertAttr, ha, hb,
        SynError.new, SynError.combine]
    · simp [parse_attrs, findAttr, AttrMeta.path, parseAttrsRun, parseAttrsGo, processItem, lookupKind,
        insertAttr, ha, hb, combineErrors, reduceCombine, SynError.new, SynError.combine]
  · intro s1 s2
    rfl

theorem C5_witness :
    (parseAttrsRun [("name", Kind.name)]
        [⟨"name", 1, some ("x", 2)⟩, ⟨"name", 3, some ("y", 4)⟩] =
        .ok ⟨[(SynError.new 3 "duplicate attribute found").combine
            (SynError.new 1 "previous use here")],
          [(Kind.name, ⟨3, 4, "y"⟩)]⟩ ∧
      parse_attrs [.list "anno" [⟨"name", 1, some ("x", 2)⟩, ⟨"name", 3, some ("y", 4)⟩]]
        [("name", Kind.name)] =
        .error ⟨[(3, "duplicate attribute found"), (1, "previous use here")]⟩) ∧
    parse_attrs [.list "anno" [⟨"ignore", 1, none⟩, ⟨"ignore", 2, none⟩]] fieldAllow =
      .ok [(Kind.ignore, ⟨2, 2, ""⟩)] :=
  ⟨C5_duplicate_key.1 1 2 3 4 "x" "y" (by decide) (by decide),
    C5_duplicate_key.2 1 2⟩

/-- Claim C8: an explicit rename that is non-empty after trimming is
reported verbatim as the descriptor's `name`, for records (`ClassMeta`),
enums (`EnumMeta`), fields and variants alike; an explicit rename that is
empty after trimming is rejected with a diagnostic rather than replaced by
a default. -/
theorem C8_explicit_rename :
    (∀ (id v : String) (ks vs : Span),
      ((trim v).isEmpty = false →
        ClassMeta.parse ⟨id, [.list "anno" [⟨"name", ks, some (v, vs)⟩]]⟩ =
          .ok ⟨false, false, v⟩) ∧
      ((trim v).isEmpty = true →
        ClassMeta.parse ⟨id, [.list "anno" [⟨"name", ks, some (v, vs)⟩]]⟩ =
          .error (SynError.new vs "name cannot be empty"))) ∧
    (∀ (id v : String) (ks vs : Span),
      ((trim v).isEmpty = false →
        EnumMeta.parse ⟨id, [.list "anno" [⟨"name", ks, some (v, vs)⟩]]⟩ =
          .ok ⟨false, v⟩) ∧
      ((trim v).isEmpty = true →
        EnumMeta.parse ⟨id, [.list "anno" [⟨"name", ks, some (v, vs)⟩]]⟩ =
          .error (SynError.new vs "name cannot be empty"))) ∧
    (∀ (v : String) (ks vs ks2 vs2 sp fsp : Span),
      ((trim v).isEmpty = false →
        collect_fields
          [⟨some "f", sp, RustTy.otherTy,
            [.list "anno" [⟨"name", ks, some (v, vs)⟩,
              ⟨"lua_type", ks2, some ("integer", vs2)⟩]], fsp⟩]
          false =
          .ok [⟨v, "integer", []⟩]) ∧
      ((trim v).isEmpty = true →
        collect_fields
          [⟨some "f", sp, RustTy.otherTy,
            [.list "anno" [⟨"name", ks, some (v, vs)⟩,
              ⟨"lua_type", ks2, some ("integer", vs2)⟩]], fsp⟩]
          false =
          .error ⟨[(vs, "attribute cannot be empty")]⟩)) ∧
    (∀ (v en : String) (ks vs sp : Span),
      ((trim v).isEmpty = false →
        collect_variants
          [⟨"X", sp, [.list "anno" [⟨"name", ks, some (v, vs)⟩]],
            VariantFields.unit, none, sp⟩] en false =
          .ok [⟨sp, "X", v, .number 0, []⟩]) ∧
      ((trim v).isEmpty = true →
        collect_variants
          [⟨"X", sp, [.list "anno" [⟨"name", ks, some (v, vs)⟩]],
            VariantFields.unit, none, sp⟩] en false =
          .error ⟨[(vs, "attribute cannot be empty")]⟩)) := by
  refine ⟨fun id v ks vs => ⟨fun h => ?_, fun h => ?_⟩,
    fun id v ks vs => ⟨fun h => ?_, fun h => ?_⟩,
    fun v ks vs ks2 vs2 sp fsp => ⟨fun h => ?_, fun h => ?_⟩,
    fun v en ks vs sp => ⟨fun h => ?_, fun h => ?_⟩⟩
  · simp [ClassMeta.parse, findAttr, AttrMeta.path, ClassMeta.parseList, ClassMeta.parseItem, h]
  · simp [ClassMeta.parse, findAttr, AttrMeta.path, ClassMeta.parseList, ClassMeta.parseItem, h]
  · simp [EnumMeta.parse, findAttr, AttrMeta.path, EnumMeta.parseList, EnumMeta.parseItem, h]
  · simp [EnumMeta.parse, findAttr, AttrMeta.path, EnumMeta.parseList, EnumMeta.parseItem, h]
  · have hint : (trim "integer").isEmpty = false := by decide
    simp [collect_fields, collectFieldsGo, collectFieldsStep, parse_attrs, findAttr,
      AttrMeta.path, parseAttrsRun, parseAttrsGo, processItem, lookupKind, fieldAllow,
      insertAttr, removeAttr, collect_docs, finishField, insertSeen, combineErrors,
      reduceCombine, h, hint, SynError.new, SynError.combine]
  · have hint : (trim "integer").isEmpty = false := by decide
    simp [collect_fields, collectFieldsGo, collectFieldsStep, parse_attrs, findAttr,
      AttrMeta.path, parseAttrsRun, parseAttrsGo, processItem, lookupKind, fieldAllow,
      insertAttr, removeAttr, collect_docs, finishField, insertSeen, combineErrors,
      reduceCombine, h, hint, SynError.new, SynError.combine]
  · simp [collect_variants, collectVariantsState, collectVariantsStep, parse_attrs,
      findAttr, AttrMeta.path, parseAttrsRun, parseAttrsGo, processItem, lookupKind, insertAttr,
      removeAttr, collect_docs, finishVariant, insertSeen, combineErrors, reduceCombine,
      h, SynError.new, SynError.combine]
  · simp [collect_variants, collectVariantsState, collectVariantsStep, parse_attrs,
      findAttr, AttrMeta.path, parseAttrsRun, parseAttrsGo, processItem, lookupKind, insertAttr,
      removeAttr, collect_docs, finishVariant, insertSeen, combineErrors, reduceCombine,
      h, SynError.new, SynError.combine]

theorem C8_witness :
    (ClassMeta.parse ⟨"S", [.list "anno" [⟨"name", 1, some ("Bob", 2)⟩]]⟩ =
        .ok ⟨false, false, "Bob"⟩ ∧
      ClassMeta.parse ⟨"S", [.list "anno" [⟨"name", 1, some (" ", 2)⟩]]⟩ =
        .error (SynError.new 2 "name cannot be empty")) ∧
    (EnumMeta.parse ⟨"S", [.list "anno" [⟨"name", 1, some ("Bob", 2)⟩]]⟩ =
        .ok ⟨false, "Bob"⟩ ∧
      EnumMeta.parse ⟨"S", [.list "anno" [⟨"name", 1, some (" ", 2)⟩]]⟩ =
        .error (SynError.new 2 "name cannot be empty")) ∧
    (collect_fields
        [⟨some "f", 5, RustTy.otherTy,
          [.list "anno" [⟨"name", 1, some ("Bob", 2)⟩, ⟨"lua_type", 3, some ("integer", 4)⟩]],
          6⟩] false =
        .ok [⟨"Bob", "integer", []⟩] ∧
      collect_fields
        [⟨some "f", 5, RustTy.otherTy,
          [.list "anno" [⟨"name", 1, some (" ", 2)⟩, ⟨"lua_type", 3, some ("integer", 4)⟩]],
          6⟩] false =
        .error ⟨[(2, "attribute cannot be empty")]⟩) ∧
    (collect_variants
        [⟨"X", 5, [.list "anno" [⟨"name", 1, some ("Bob", 2)⟩]],
          VariantFields.unit, none, 5⟩] "E" false =
        .ok [⟨5, "X", "Bob", .number 0, []⟩] ∧
      collect_variants
        [⟨"X", 5, [.list "anno" [⟨"name", 1, some (" ", 2)⟩]],
          VariantFields.unit, none, 5⟩] "E" false =
        .error ⟨[(2, "attribute cannot be empty")]⟩) :=
  ⟨⟨(C8_explicit_rename.1 "S" "Bob" 1 2).1 (by decide),
      (C8_explicit_rename.1 "S" " " 1 2).2 (by decide)⟩,
    ⟨(C8_explicit_rename.2.1 "S" "Bob" 1 2).1 (by decide),
      (C8_explicit_rename.2.1 "S" " " 1 2).2 (by decide)⟩,
    ⟨(C8_explicit_rename.2.2.1 "Bob" 1 2 3 4 5 6).1 (by decide),
      (C8_explicit_rename.2.2.1 " " 1 2 3 4 5 6).2 (by decide)⟩,
    ⟨(C8_explicit_rename.2.2.2 "Bob" "E" 1 2 5).1 (by decide),
      (C8_explicit_rename.2.2.2 " " "E" 1 2 5).2 (by decide)⟩⟩

lemma trimStart_idem (s : String) : trimStart (trimStart s) = trimStart s :=
  congrArg String.mk (List.dropWhile_idempotent isWs s.data)

/-- Claim C9 counterexample: a `Named` discriminant string is emitted
verbatim, so its leading whitespace reaches the rendered output — rendering
is not invariant under left-trimming every descriptor string. -/
theorem C9_counterexample :
    Impl.generate_enum ⟨[], "E", [⟨"V", Impl.Discriminant.named " Foo", []⟩]⟩ =
      "---@enum E\nE = \x7b\n    V =  Foo,\n\x7d\n\n" ∧
    Impl.generate_enum ⟨[], "E", [⟨"V", Impl.Discriminant.named " Foo", []⟩]⟩ ≠
      Impl.generate_enum
        (Impl.trimAllEnum ⟨[], "E", [⟨"V", Impl.Discriminant.named " Foo", []⟩]⟩) :=
  ⟨rfl, by decide⟩

/-- Claim C9 as amended: the renderer left-trims doc lines, the class/enum
name, field names and types, and variant names before emission — rendering
is invariant under left-trimming exactly those fields — but a `Named`
discriminant string is written verbatim, untrimmed. -/
theorem C9_renderer_trims :
    (∀ c : Impl.Class, Impl.generate_class c = Impl.generate_class (Impl.normClass c)) ∧
    (∀ e : Impl.Enum, Impl.generate_enum e = Impl.generate_enum (Impl.normEnum e)) := by
  constructor
  · intro c
    simp [Impl.generate_class, Impl.normClass, Impl.normField, List.foldl_map,
      trimStart_idem]
  · intro e
    simp [Impl.generate_enum, Impl.normEnum, Impl.normVariant, List.foldl_map,
      trimStart_idem]
